import Mathlib

/-!
Verification of the vault-namespace-controller reconciliation core.

The Go sources embedded here:
  pkg/controller/namespace_controller.go — shouldSyncNamespace, matchesAnyPattern,
    handleNamespaceCreation, handleNamespaceDeletion, formatVaultNamespacePath,
    and the Reconcile control flow around them;
  pkg/vault/client.go — splitNamespacePath and NamespaceExists.

Strings are modelled as lists of characters (Go strings are byte slices;
all the code under study treats them as character sequences via the
strings/path packages).  The Vault HTTP backend and the regular-expression
engine are modelled as explicit parameters, since the core treats both as
opaque collaborators.
-/

namespace VaultNSC

/-- Model of a Go string: a list of characters. -/
abbrev Str := List Char

/-- Model of strings.TrimLeft(s, "/"): remove every leading slash character. -/
def trimLeftSlashes : Str → Str
  | [] => []
  | c :: rest => if c = '/' then trimLeftSlashes rest else c :: rest

/-- Model of strings.TrimRight(s, "/"): remove every trailing slash character. -/
def trimRightSlashes (s : Str) : Str :=
  (trimLeftSlashes s.reverse).reverse

/-- Model of strings.Trim(s, "/"): remove every leading and trailing slash. -/
def trimSlashes (s : Str) : Str :=
  trimRightSlashes (trimLeftSlashes s)

/-- Model of strings.TrimSuffix(s, "/"): remove one trailing slash if present. -/
def trimSuffixSlash (s : Str) : Str :=
  match s.getLast? with
  | some '/' => s.dropLast
  | _ => s

/-- Model of strings.HasPrefix. -/
def strStartsWith : Str → Str → Bool
  | _, [] => true
  | [], _ :: _ => false
  | c :: rest, d :: sub => c = d && strStartsWith rest sub

/-- Model of strings.Contains(s, sub). -/
def strContains : Str → Str → Bool
  | s, [] => (strStartsWith s [])
  | [], _ :: _ => false
  | c :: rest, sub => strStartsWith (c :: rest) sub || strContains rest sub

/-- Model of strings.Contains(s, "/") specialised to one character, as used by
splitNamespacePath; kept as plain list membership of the slash character. -/
def containsSlash (s : Str) : Bool :=
  s.any (fun c => c = '/')

/-- Model of fmt.Sprintf for a format string holding string verbs: each
occurrence of the verb %s is replaced by the argument.  The PathTemplate data
model (spec section 3) requires exactly one substitution slot, for which this
is exactly Go's behaviour; formats outside that contract are out of scope. -/
def sprintf1 : Str → Str → Str
  | [], _ => []
  | '%' :: 's' :: rest, arg => arg ++ sprintf1 rest arg
  | c :: rest, arg => c :: sprintf1 rest arg

/-- Model of Go path.Split(p): split after the final slash, returning
(dir, file) with dir = p up to and including the last slash, file = the rest;
when p has no slash, dir is empty and file is p. -/
def pathSplit : Str → Str × Str
  | [] => ([], [])
  | c :: rest =>
    if containsSlash rest then (c :: (pathSplit rest).1, (pathSplit rest).2)
    else if c = '/' then ([c], rest)
    else ([], c :: rest)

/-- Embedding of splitNamespacePath (pkg/vault/client.go): trim slashes from
both ends, return ("", cleaned) when no slash remains, else split at the last
slash and drop the trailing slash of the dir component. -/
def splitNamespacePath (namespacePath : Str) : Str × Str :=
  let cleanPath := trimSlashes namespacePath
  if containsSlash cleanPath = false then ([], cleanPath)
  else
    let (dir, base) := pathSplit cleanPath
    (trimSuffixSlash dir, base)

/-- Vault-related fields of the controller configuration used by the core
(pkg/config: VaultConfig.NamespaceRoot). -/
structure VaultConfig where
  namespaceRoot : Str

/-- Controller configuration fields used by the reconciliation core
(pkg/config: ControllerConfig). -/
structure ControllerConfig where
  includeNamespaces : List Str
  excludeNamespaces : List Str
  namespaceFormat : Str
  deleteVaultNamespaces : Bool
  reconcileInterval : Nat
  vault : VaultConfig

/-- Abstraction of the Go regexp package as seen through regexp.MatchString:
a compiler from pattern strings to matchers, returning no matcher when the
pattern is malformed. -/
structure RegexEngine where
  compile : Str → Option (Str → Bool)

/-- Model of regexp.MatchString(pattern, s): (matched, errored).  A malformed
pattern yields (false, true) — Go returns matched = false together with the
compile error; a well-formed pattern runs the compiled matcher and returns a
nil error. -/
def goMatchString (e : RegexEngine) (pattern s : Str) : Bool × Bool :=
  match e.compile pattern with
  | none => (false, true)
  | some m => (m s, false)

/-- Embedding of matchesAnyPattern (namespace_controller.go): iterate the
patterns in order; for each, run regexp.MatchString discarding its error, and
return true on the first match; return false after the loop. -/
def matchesAnyPattern (e : RegexEngine) (name : Str) : List Str → Bool
  | [] => false
  | pattern :: rest =>
    if (goMatchString e pattern name).1 then true
    else matchesAnyPattern e name rest

/-- The hardcoded system namespace patterns of shouldSyncNamespace. -/
def systemPatterns : List Str :=
  ["^kube-.*".data, "^openshift-.*".data, "^openshift$".data, "^default$".data]

/-- The reconciler as the core sees it: configuration, the ambient regex
engine, and the test-only syncChecker hook (nil in production). -/
structure Reconciler where
  config : ControllerConfig
  engine : RegexEngine
  syncChecker : Option (Str → Bool)

/-- Embedding of shouldSyncNamespace (namespace_controller.go): the test hook
short-circuits; otherwise system patterns are consulted first (system
namespaces sync only when explicitly included), then exclude patterns, then
include patterns when any are configured, defaulting to sync. -/
def shouldSyncNamespace (r : Reconciler) (namespaceName : Str) : Bool :=
  match r.syncChecker with
  | some f => f namespaceName
  | none =>
    if matchesAnyPattern r.engine namespaceName systemPatterns then
      matchesAnyPattern r.engine namespaceName r.config.includeNamespaces
    else if matchesAnyPattern r.engine namespaceName r.config.excludeNamespaces then
      false
    else if r.config.includeNamespaces.length > 0 then
      matchesAnyPattern r.engine namespaceName r.config.includeNamespaces
    else
      true

/-- Embedding of formatVaultNamespacePath in its strings.TrimLeft/TrimRight
form (namespace_controller.go lines 159-169): apply the format when one is
configured, then, when a namespace root is configured, join the
slash-right-trimmed root and the slash-left-trimmed formatted name with a
single slash. -/
def formatVaultNamespacePath (r : Reconciler) (namespaceName : Str) : Str :=
  let formatted :=
    if r.config.namespaceFormat = [] then namespaceName
    else sprintf1 r.config.namespaceFormat namespaceName
  if r.config.vault.namespaceRoot = [] then formatted
  else
    trimRightSlashes r.config.vault.namespaceRoot ++ '/' :: trimLeftSlashes formatted

/-- Embedding of formatVaultNamespacePath in its index-based form
(namespace_controller.go lines 341-364): the root check nsRoot[len(nsRoot)-1]
is guarded by the non-emptiness test, but formattedName[0] is evaluated with
no guard; on an empty formatted name that Go expression panics with an index
out of range, modelled as Option.none. -/
def formatVaultNamespacePathIdx (r : Reconciler) (namespaceName : Str) : Option Str :=
  let formattedName :=
    if r.config.namespaceFormat = [] then namespaceName
    else sprintf1 r.config.namespaceFormat namespaceName
  if r.config.vault.namespaceRoot = [] then some formattedName
  else
    let nsRoot :=
      if r.config.vault.namespaceRoot.getLast? = some '/' then
        r.config.vault.namespaceRoot.dropLast
      else r.config.vault.namespaceRoot
    match formattedName with
    | [] => none
    | c :: restName =>
      let stripped := if c = '/' then restName else c :: restName
      some (nsRoot ++ '/' :: stripped)

/-- A Gateway error: the message of the underlying Go error. -/
abbrev GwErr := Str

/-- The Backend Namespace Gateway (vault.Client interface): three operations
against backend state of type sigma, each returning a result and the backend
state after the call. -/
structure Gateway (σ : Type) where
  nsExists : σ → Str → (Except GwErr Bool) × σ
  createNs : σ → Str → (Except GwErr Unit) × σ
  deleteNs : σ → Str → (Except GwErr Unit) × σ

/-- One observed Gateway call, recorded in order by the handler embeddings. -/
inductive GwCall where
  | check (path : Str)
  | create (path : Str)
  | delete (path : Str)
deriving DecidableEq

/-- Is the call a mutating one (Create or Delete)? -/
def GwCall.isMutating : GwCall → Bool
  | .check _ => false
  | .create _ => true
  | .delete _ => true

/-- Classified reconciliation errors, mirroring the sentinel wrapping in
namespace_controller.go: ErrNamespaceCheck, ErrNamespaceCreation and
ErrNamespaceDeletion each wrap the underlying Gateway error via fmt.Errorf
with the w verb. -/
inductive RecErr where
  | checkFailed (underlying : GwErr)
  | creationFailed (underlying : GwErr)
  | deletionFailed (underlying : GwErr)
deriving DecidableEq

/-- The action component of a ReconcileOutcome (spec section 3). -/
inductive Action where
  | acNone
  | created
  | deleted
  | skipped
deriving DecidableEq

/-- Result of one handler run: the classified outcome, the backend state left
behind, and the ordered list of Gateway calls that were made. -/
structure HandlerRes (σ : Type) where
  res : Except RecErr Action
  state : σ
  calls : List GwCall

/-- Embedding of handleNamespaceCreation (namespace_controller.go): derive the
path, ask the Gateway whether it exists (error wrapped as ErrNamespaceCheck),
do nothing when it does, otherwise create it (error wrapped as
ErrNamespaceCreation). -/
def handleNamespaceCreation {σ : Type} (G : Gateway σ) (r : Reconciler)
    (s : σ) (namespaceName : Str) : HandlerRes σ :=
  let vaultNamespacePath := formatVaultNamespacePath r namespaceName
  match G.nsExists s vaultNamespacePath with
  | (.error e, s1) => ⟨.error (.checkFailed e), s1, [.check vaultNamespacePath]⟩
  | (.ok true, s1) => ⟨.ok .acNone, s1, [.check vaultNamespacePath]⟩
  | (.ok false, s1) =>
    match G.createNs s1 vaultNamespacePath with
    | (.error e, s2) =>
      ⟨.error (.creationFailed e), s2,
        [.check vaultNamespacePath, .create vaultNamespacePath]⟩
    | (.ok _, s2) =>
      ⟨.ok .created, s2, [.check vaultNamespacePath, .create vaultNamespacePath]⟩

/-- Embedding of handleNamespaceDeletion (namespace_controller.go): when
deletion is disabled by policy, return success immediately with no Gateway
call; otherwise check existence (error wrapped as ErrNamespaceCheck), do
nothing when absent, otherwise delete (error wrapped as
ErrNamespaceDeletion). -/
def handleNamespaceDeletion {σ : Type} (G : Gateway σ) (r : Reconciler)
    (s : σ) (namespaceName : Str) : HandlerRes σ :=
  if r.config.deleteVaultNamespaces = false then ⟨.ok .skipped, s, []⟩
  else
    let vaultNamespacePath := formatVaultNamespacePath r namespaceName
    match G.nsExists s vaultNamespacePath with
    | (.error e, s1) => ⟨.error (.checkFailed e), s1, [.check vaultNamespacePath]⟩
    | (.ok false, s1) => ⟨.ok .acNone, s1, [.check vaultNamespacePath]⟩
    | (.ok true, s1) =>
      match G.deleteNs s1 vaultNamespacePath with
      | (.error e, s2) =>
        ⟨.error (.deletionFailed e), s2,
          [.check vaultNamespacePath, .delete vaultNamespacePath]⟩
      | (.ok _, s2) =>
        ⟨.ok .deleted, s2, [.check vaultNamespacePath, .delete vaultNamespacePath]⟩

/-- A ReconcileOutcome as surfaced to the scheduler: action, optional
classified error, advisory requeue interval in seconds, plus the backend state
and Gateway call trace of the invocation. -/
structure ReconcileOutcome (σ : Type) where
  action : Action
  err : Option RecErr
  requeueAfter : Nat
  state : σ
  calls : List GwCall

/-- Embedding of the Present branch of Reconcile (namespace_controller.go):
when shouldSyncNamespace rejects the name the namespace is skipped with no
Gateway call; otherwise handleNamespaceCreation runs, a failure is surfaced
with RequeueAfter = 30 seconds, and success requeues after the configured
reconcile interval. -/
def reconcilePresent {σ : Type} (G : Gateway σ) (r : Reconciler)
    (s : σ) (name : Str) : ReconcileOutcome σ :=
  if shouldSyncNamespace r name = false then ⟨.skipped, none, 0, s, []⟩
  else
    match handleNamespaceCreation G r s name with
    | ⟨.error e, s1, cs⟩ => ⟨.acNone, some e, 30, s1, cs⟩
    | ⟨.ok a, s1, cs⟩ => ⟨a, none, r.config.reconcileInterval, s1, cs⟩

/-- Embedding of the Absent branch of Reconcile (namespace_controller.go):
the namespace was not found, so handleNamespaceDeletion runs; a failure is
surfaced with RequeueAfter = 30 seconds, success returns an empty result. -/
def reconcileAbsent {σ : Type} (G : Gateway σ) (r : Reconciler)
    (s : σ) (name : Str) : ReconcileOutcome σ :=
  match handleNamespaceDeletion G r s name with
  | ⟨.error e, s1, cs⟩ => ⟨.acNone, some e, 30, s1, cs⟩
  | ⟨.ok a, s1, cs⟩ => ⟨a, none, 0, s1, cs⟩

/-- The canonical well-behaved Gateway: backend state is the list of existing
namespace paths; Exists reports membership without error, Create adds the
path, Delete removes it.  After a Create of a path, Exists reports true for
it; before, false — the Gateway shape claims C4 quantifies over. -/
def listGateway : Gateway (List Str) where
  nsExists s p := (.ok (decide (p ∈ s)), s)
  createNs s p := (.ok (), p :: s)
  deleteNs s p := (.ok (), s.filter (fun q => q ≠ p))

/-- Model of one sys/namespaces LIST exchange as vault/client.go decodes it:
a transport error carrying a message, a nil response or nil data, a response
whose keys field is not a list, or a keys list whose non-string entries are
recorded as Option.none. -/
inductive ListResponse where
  | errResp (msg : Str)
  | nilResp
  | badKeys
  | keys (ks : List (Option Str))
deriving DecidableEq

/-- The mutable ambient state of the Vault API client: its current namespace
header, read by client.Namespace() and written by client.SetNamespace(). -/
structure ClientState where
  nsHeader : Str

/-- Embedding of vaultClient.NamespaceExists (pkg/vault/client.go): split the
path into parent and child; save the client namespace, point the client at the
parent (or the root when empty) and defer the restore; list sys/namespaces in
that scope; a 404-bearing error and a nil response both mean the namespace
does not exist; a malformed keys field is an error; otherwise the child exists
iff some string key, with its trailing slash dropped, equals it.  Returns the
(bool, error) pair and the client state after the deferred restore ran. -/
def namespaceExists (backend : Str → ListResponse) (c : ClientState)
    (namespacePath : Str) : (Bool × Option Str) × ClientState :=
  let (parent, child) := splitNamespacePath namespacePath
  let currentNamespace := c.nsHeader
  let scopedClient : ClientState := { nsHeader := parent }
  let body : Bool × Option Str :=
    match backend scopedClient.nsHeader with
    | .errResp msg =>
      if strContains msg "404".data then (false, none)
      else (false, some ("failed to list namespaces: ".data ++ msg))
    | .nilResp => (false, none)
    | .badKeys =>
      (false, some "unexpected response format: keys is not a list".data)
    | .keys ks =>
      (ks.any (fun k =>
        match k with
        | some keyStr => trimSuffixSlash keyStr = child
        | none => false), none)
  (body, { nsHeader := currentNamespace })

/-- The sync decision as the spec states it (spec section 4.2): system check
first — system namespaces are opt-in via the include patterns — then exclude,
then include when non-empty, then default-allow; written over the pure
disjunction List.any of per-pattern match results. -/
def specShouldSync (e : RegexEngine) (includePatterns excludePatterns sysPatterns : List Str)
    (name : Str) : Bool :=
  let hits := fun patterns : List Str => patterns.any (fun p => (goMatchString e p name).1)
  if hits sysPatterns then hits includePatterns
  else if hits excludePatterns then false
  else if includePatterns ≠ [] then hits includePatterns
  else true

/-- A concrete regex engine used to exhibit witnesses: the empty pattern is
malformed, a non-empty pattern matches exactly the strings equal to it. -/
def demoEngine : RegexEngine where
  compile p := if p.length = 0 then none else some (fun s => decide (s = p))

/-- The Absent-state outcome as the spec states it (spec section 4.4): with
deletion disabled the outcome is skipped with no Gateway call; otherwise
Exists is consulted — a failure is CheckFailed; absence succeeds with nothing
to delete; presence triggers Delete, whose failure is a DeletionFailed error
with the fixed 30-second backoff and whose success is the deleted outcome. -/
def specAbsentOutcome {σ : Type} (G : Gateway σ) (r : Reconciler)
    (s : σ) (name : Str) : ReconcileOutcome σ :=
  if r.config.deleteVaultNamespaces = false then ⟨.skipped, none, 0, s, []⟩
  else
    let path := formatVaultNamespacePath r name
    match G.nsExists s path with
    | (.error e, s1) => ⟨.acNone, some (.checkFailed e), 30, s1, [.check path]⟩
    | (.ok false, s1) => ⟨.acNone, none, 0, s1, [.check path]⟩
    | (.ok true, s1) =>
      match G.deleteNs s1 path with
      | (.error e, s2) =>
        ⟨.acNone, some (.deletionFailed e), 30, s2, [.check path, .delete path]⟩
      | (.ok _, s2) => ⟨.deleted, none, 0, s2, [.check path, .delete path]⟩

/-- A reconciler configuration for concrete witnesses: no include or exclude
patterns, the default k8s- format, no namespace root, deletion enabled, the
demo regex engine, and no test hook. -/
def demoReconciler : Reconciler where
  config :=
    { includeNamespaces := []
      excludeNamespaces := []
      namespaceFormat := "k8s-%s".data
      deleteVaultNamespaces := true
      reconcileInterval := 300
      vault := { namespaceRoot := [] } }
  engine := demoEngine
  syncChecker := none

/-- A Gateway over trivial state whose existence check reports absence and
whose Create always fails, used to witness the CreationFailed path. -/
def failingCreateGateway : Gateway Unit where
  nsExists s _ := (.ok false, s)
  createNs s _ := (.error "boom".data, s)
  deleteNs s _ := (.ok (), s)

/-- A concrete backend for witnesses: the root namespace lists one child
namespace a/ plus one non-string key; everywhere else the listing is nil. -/
def demoBackend : Str → ListResponse := fun p =>
  if p = [] then ListResponse.keys [some "a/".data, none] else ListResponse.nilResp

/-- The formatted-name local of formatVaultNamespacePath: the namespace name
run through the configured format, or taken as is when no format is set. -/
def formattedOf (r : Reconciler) (name : Str) : Str :=
  if r.config.namespaceFormat = [] then name else sprintf1 r.config.namespaceFormat name

/-- A string does not begin with a slash. -/
abbrev noLeadingSlash (s : Str) : Prop := s.head? ≠ some '/'

/-- A string holds no two adjacent slashes. -/
abbrev noDoubleSlash (s : Str) : Prop :=
  List.Chain' (fun a b => ¬(a = '/' ∧ b = '/')) s

/-- Executable check for two adjacent slashes, used to evaluate noDoubleSlash
on concrete strings. -/
def hasDoubleSlashB : Str → Bool
  | [] => false
  | [_] => false
  | a :: b :: rest => (a = '/' && b = '/') || hasDoubleSlashB (b :: rest)

/-- Helper to build a reconciler around a format and a namespace root. -/
def mkReconciler (fmt root : Str) : Reconciler where
  config :=
    { includeNamespaces := []
      excludeNamespaces := []
      namespaceFormat := fmt
      deleteVaultNamespaces := true
      reconcileInterval := 300
      vault := { namespaceRoot := root } }
  engine := demoEngine
  syncChecker := none

/-- Reconciler with the default k8s- format and no namespace root. -/
def rFmtNoRoot : Reconciler := mkReconciler "k8s-%s".data []

/-- Reconciler with the default k8s- format and the root /admin/ of the
spec's second formatting equation. -/
def rAdminSlashRoot : Reconciler := mkReconciler "k8s-%s".data "/admin/".data

/-- Reconciler with the default k8s- format and the root /admin used by the
repository's own formatting test. -/
def rAdminRoot : Reconciler := mkReconciler "k8s-%s".data "/admin".data

/-- Reconciler with no format and the slash-free root admin; with the empty
namespace name its formatted name is empty. -/
def rBareRootNoFmt : Reconciler := mkReconciler [] "admin".data

/-- Reconciler with the default k8s- format and the slash-free root admin. -/
def rBareAdminRoot : Reconciler := mkReconciler "k8s-%s".data "admin".data

/-- The string-operation models reproduce Go behaviour on concrete vectors. -/
theorem goStringOps_vectors :
    trimSlashes "//a/b//".data = "a/b".data
    ∧ sprintf1 "k8s-%s".data "x".data = "k8s-x".data
    ∧ strContains "error 404 oops".data "404".data = true
    ∧ strContains "error 503".data "404".data = false
    ∧ trimSuffixSlash "a/".data = "a".data
    ∧ pathSplit "a/b/c".data = ("a/b/".data, "c".data) := by decide

/-- The path splitter reproduces the vectors of the repository's own
TestSplitNamespacePath table. -/
theorem splitNamespacePath_vectors :
    splitNamespacePath "namespace1".data = ("".data, "namespace1".data)
    ∧ splitNamespacePath "parent/child".data = ("parent".data, "child".data)
    ∧ splitNamespacePath "grandparent/parent/child".data =
        ("grandparent/parent".data, "child".data)
    ∧ splitNamespacePath "/namespace1".data = ("".data, "namespace1".data)
    ∧ splitNamespacePath "namespace1/".data = ("".data, "namespace1".data)
    ∧ splitNamespacePath "/parent/child/".data = ("parent".data, "child".data) := by
  decide

/-- The path formatter reproduces the vectors of the repository's own
TestNamespaceReconciler_formatVaultNamespacePath table, leading slash of the
root included. -/
theorem formatVaultNamespacePath_vectors :
    formatVaultNamespacePath rFmtNoRoot "test-ns".data = "k8s-test-ns".data
    ∧ formatVaultNamespacePath (mkReconciler "kubernetes-%s-ns".data []) "test-ns".data =
        "kubernetes-test-ns-ns".data
    ∧ formatVaultNamespacePath rAdminRoot "test-ns".data = "/admin/k8s-test-ns".data
    ∧ formatVaultNamespacePath rAdminSlashRoot "test-ns".data = "/admin/k8s-test-ns".data
    ∧ formatVaultNamespacePath (mkReconciler "/k8s-%s".data "/admin".data) "test-ns".data =
        "/admin/k8s-test-ns".data := by
  decide

theorem matchesAnyPattern_eq_any (e : RegexEngine) (name : Str) (patterns : List Str) :
    matchesAnyPattern e name patterns = patterns.any (fun p => (goMatchString e p name).1) := by
  induction patterns with
  | nil => rfl
  | cons p rest ih =>
    simp only [matchesAnyPattern, List.any_cons]
    by_cases h : (goMatchString e p name).1 = true
    · simp [h]
    · simp only [Bool.not_eq_true] at h
      simp [h, ih]

/-- C1: shouldSyncNamespace follows the spec's exact precedence: system
patterns first (a system namespace syncs iff it matches some include
pattern), then exclude patterns, then the include patterns when any are
configured, then default-allow. -/
theorem c1_shouldSync_precedence (e : RegexEngine) (cfg : ControllerConfig) (name : Str) :
    shouldSyncNamespace ⟨cfg, e, none⟩ name =
      specShouldSync e cfg.includeNamespaces cfg.excludeNamespaces systemPatterns name := by
  simp only [shouldSyncNamespace, specShouldSync, matchesAnyPattern_eq_any]
  rcases cfg with ⟨inc, exc, fmt, del, int, v⟩
  cases hinc : inc with
  | nil => simp
  | cons a as => simp

/-- C8: matchesAnyPattern is the pure disjunction of the per-pattern match
results — true iff some pattern matches; a malformed pattern (one the engine
cannot compile) is a non-match for that pattern only and evaluation continues
with the rest; the boolean result is invariant under reordering of the
pattern sequence; and on a malformed pattern regexp.MatchString itself
returns matched = false alongside its (discarded) error. -/
theorem c8_matcher_disjunction (e : RegexEngine) (name : Str) (patterns : List Str) :
    (matchesAnyPattern e name patterns = true ↔
      ∃ p ∈ patterns, (goMatchString e p name).1 = true)
    ∧ (∀ (p : Str) (rest : List Str), e.compile p = none →
        matchesAnyPattern e name (p :: rest) = matchesAnyPattern e name rest)
    ∧ (∀ patterns2 : List Str, patterns.Perm patterns2 →
        matchesAnyPattern e name patterns = matchesAnyPattern e name patterns2)
    ∧ (∀ p : Str, e.compile p = none → goMatchString e p name = (false, true)) := by
  refine ⟨?_, ?_, ?_, ?_⟩
  · rw [matchesAnyPattern_eq_any]
    simp [List.any_eq_true]
  · intro p rest hmal
    simp [matchesAnyPattern, goMatchString, hmal]
  · intro patterns2 hperm
    rw [matchesAnyPattern_eq_any, matchesAnyPattern_eq_any]
    cases h2 : patterns2.any (fun p => (goMatchString e p name).1) with
    | true =>
      rw [List.any_eq_true] at h2 ⊢
      obtain ⟨p, hp, hm⟩ := h2
      exact ⟨p, hperm.mem_iff.mpr hp, hm⟩
    | false =>
      rw [List.any_eq_false] at h2 ⊢
      intro p hp
      exact h2 p (hperm.mem_iff.mp hp)
  · intro p hmal
    simp [goMatchString, hmal]

/-- C8 witness: with the demo engine, the malformed empty pattern is skipped
and the remaining pattern still decides the result. -/
theorem c8_matcher_disjunction_witness :
    matchesAnyPattern demoEngine "x".data ([] :: ["x".data]) =
      matchesAnyPattern demoEngine "x".data ["x".data] :=
  (c8_matcher_disjunction demoEngine "x".data ([] :: ["x".data])).2.1 [] ["x".data] (by rfl)

/-- C9: NamespaceExists restores the client's ambient namespace header on
every exit path: whatever the backend answers, the client state after the
call equals the state before it. -/
theorem c9_namespaceExists_restores_state (backend : Str → ListResponse)
    (c : ClientState) (path : Str) :
    (namespaceExists backend c path).2 = c := rfl

/-- C4: against the canonical Gateway, starting from a state where the target
path is absent, a synced namespace reconciles to created on the first
invocation — calls Exists then Create — and to none on the second, which only
calls Exists: Create is called exactly once in total and the second
invocation makes no mutating call. -/
theorem c4_present_idempotent (r : Reconciler) (name : Str) (s0 : List Str)
    (hsync : shouldSyncNamespace r name = true)
    (habsent : formatVaultNamespacePath r name ∉ s0) :
    (reconcilePresent listGateway r s0 name).action = .created
    ∧ (reconcilePresent listGateway r s0 name).err = none
    ∧ (reconcilePresent listGateway r
        (reconcilePresent listGateway r s0 name).state name).action = .acNone
    ∧ (reconcilePresent listGateway r
        (reconcilePresent listGateway r s0 name).state name).err = none
    ∧ (reconcilePresent listGateway r
        (reconcilePresent listGateway r s0 name).state name).calls =
        [.check (formatVaultNamespacePath r name)]
    ∧ ((reconcilePresent listGateway r s0 name).calls
        ++ (reconcilePresent listGateway r
            (reconcilePresent listGateway r s0 name).state name).calls).countP
          (fun c => c.isMutating) = 1 := by
  have h1 : reconcilePresent listGateway r s0 name =
      ⟨.created, none, r.config.reconcileInterval,
        formatVaultNamespacePath r name :: s0,
        [.check (formatVaultNamespacePath r name),
         .create (formatVaultNamespacePath r name)]⟩ := by
    simp [reconcilePresent, hsync, handleNamespaceCreation, listGateway, habsent]
  have h2 : reconcilePresent listGateway r
      (formatVaultNamespacePath r name :: s0) name =
      ⟨.acNone, none, r.config.reconcileInterval,
        formatVaultNamespacePath r name :: s0,
        [.check (formatVaultNamespacePath r name)]⟩ := by
    simp [reconcilePresent, hsync, handleNamespaceCreation, listGateway]
  simp [h1, h2, List.countP, List.countP.go, GwCall.isMutating]

/-- C4 witness: a concrete run of the Present path with the demo reconciler
against the canonical Gateway starting from the empty backend. -/
theorem c4_present_idempotent_witness :
    (reconcilePresent listGateway demoReconciler [] "app".data).action = .created :=
  (c4_present_idempotent demoReconciler "app".data [] (by decide) (by decide)).1

/-- C5: the Absent branch of reconciliation equals the spec's description:
skipped with no Gateway call when deletion is disabled; otherwise Exists is
called, absence succeeds without Delete, presence leads to Delete with
outcome deleted on success and a DeletionFailed error carrying the fixed
30-second backoff on failure. -/
theorem c5_absent_matches_spec {σ : Type} (G : Gateway σ) (r : Reconciler)
    (s : σ) (name : Str) :
    reconcileAbsent G r s name = specAbsentOutcome G r s name := by
  cases hdel : r.config.deleteVaultNamespaces with
  | false => simp [reconcileAbsent, handleNamespaceDeletion, specAbsentOutcome, hdel]
  | true =>
    simp only [reconcileAbsent, handleNamespaceDeletion, specAbsentOutcome, hdel]
    rcases hex : G.nsExists s (formatVaultNamespacePath r name) with ⟨res, s1⟩
    cases res with
    | error e => simp [hex]
    | ok b =>
      cases b with
      | false => simp [hex]
      | true =>
        rcases hdel2 : G.deleteNs s1 (formatVaultNamespacePath r name) with ⟨dres, s2⟩
        cases dres with
        | error e => simp [hex, hdel2]
        | ok u => simp [hex, hdel2]

/-- C6: a failing Create surfaces as a creationFailed error wrapping the
Gateway's error with a non-zero requeue interval; a failing Exists surfaces
as checkFailed instead; and the three classifications are pairwise
distinguishable. -/
theorem c6_error_classification {σ : Type} (G : Gateway σ) (r : Reconciler)
    (name : Str) (s s1 s2 : σ) (e : GwErr)
    (hsync : shouldSyncNamespace r name = true)
    (hex : G.nsExists s (formatVaultNamespacePath r name) = (.ok false, s1))
    (hcr : G.createNs s1 (formatVaultNamespacePath r name) = (.error e, s2)) :
    (reconcilePresent G r s name).err = some (.creationFailed e)
    ∧ (reconcilePresent G r s name).requeueAfter ≠ 0
    ∧ (∀ (t t1 : σ) (e2 : GwErr),
        G.nsExists t (formatVaultNamespacePath r name) = (.error e2, t1) →
        (reconcilePresent G r t name).err = some (.checkFailed e2))
    ∧ (∀ a b : GwErr,
        RecErr.creationFailed a ≠ RecErr.checkFailed b
        ∧ RecErr.creationFailed a ≠ RecErr.deletionFailed b
        ∧ RecErr.checkFailed a ≠ RecErr.deletionFailed b) := by
  refine ⟨?_, ?_, ?_, ?_⟩
  · simp [reconcilePresent, hsync, handleNamespaceCreation, hex, hcr]
  · simp [reconcilePresent, hsync, handleNamespaceCreation, hex, hcr]
  · intro t t1 e2 hex2
    simp [reconcilePresent, hsync, handleNamespaceCreation, hex2]
  · intro a b
    refine ⟨?_, ?_, ?_⟩ <;> intro h <;> cases h

/-- C6 witness: a concrete Gateway whose Create fails yields the
creationFailed classification and a non-zero requeue. -/
theorem c6_error_classification_witness :
    (reconcilePresent failingCreateGateway demoReconciler () "app".data).err =
      some (.creationFailed "boom".data)
    ∧ (reconcilePresent failingCreateGateway demoReconciler () "app".data).requeueAfter ≠ 0 := by
  have h := c6_error_classification failingCreateGateway demoReconciler "app".data
    () () () "boom".data (by decide) rfl rfl
  exact ⟨h.1, h.2.1⟩

/-- C7: NamespaceExists reports non-existence as (false, nil): a 404-bearing
transport error, a nil listing response, and a listing without the child all
yield (false, nil); a transport error without 404 yields false together with
a non-nil error. -/
theorem c7_namespaceExists_not_found (backend : Str → ListResponse)
    (c : ClientState) (path : Str) :
    (∀ msg : Str, backend (splitNamespacePath path).1 = .errResp msg →
        strContains msg "404".data = true →
        (namespaceExists backend c path).1 = (false, none))
    ∧ (backend (splitNamespacePath path).1 = .nilResp →
        (namespaceExists backend c path).1 = (false, none))
    ∧ (∀ ks : List (Option Str), backend (splitNamespacePath path).1 = .keys ks →
        (ks.any (fun k =>
          match k with
          | some keyStr => trimSuffixSlash keyStr = (splitNamespacePath path).2
          | none => false)) = false →
        (namespaceExists backend c path).1 = (false, none))
    ∧ (∀ msg : Str, backend (splitNamespacePath path).1 = .errResp msg →
        strContains msg "404".data = false →
        (namespaceExists backend c path).1.1 = false
          ∧ (namespaceExists backend c path).1.2 ≠ none) := by
  rcases hsp : splitNamespacePath path with ⟨parent, child⟩
  refine ⟨?_, ?_, ?_, ?_⟩
  · intro msg hb h404
    simp only [hsp] at hb
    simp [namespaceExists, hsp, hb, h404]
  · intro hb
    simp only [hsp] at hb
    simp [namespaceExists, hsp, hb]
  · intro ks hb hnone
    simp only [hsp] at hb hnone
    simp [namespaceExists, hsp, hb, hnone]
  · intro msg hb h404
    simp only [hsp] at hb
    simp [namespaceExists, hsp, hb, h404]

/-- C7 witness: the child x is absent from the root listing of the demo
backend, so NamespaceExists reports (false, nil). -/
theorem c7_namespaceExists_not_found_witness :
    (namespaceExists demoBackend ⟨"root".data⟩ "x".data).1 = (false, none) :=
  (c7_namespaceExists_not_found demoBackend ⟨"root".data⟩ "x".data).2.2.1
    [some "a/".data, none] (by decide) (by decide)

theorem pathSplit_append : ∀ p : Str, (pathSplit p).1 ++ (pathSplit p).2 = p := by
  intro p
  induction p with
  | nil => rfl
  | cons c rest ih =>
    simp only [pathSplit]
    by_cases h : containsSlash rest = true
    · simp [h, ih]
    · by_cases hc : c = '/'
      · simp [h, hc]
      · simp [h, hc]

theorem pathSplit_child_noSlash : ∀ p : Str, containsSlash (pathSplit p).2 = false := by
  intro p
  induction p with
  | nil => rfl
  | cons c rest ih =>
    simp only [pathSplit]
    by_cases h : containsSlash rest = true
    · simp [h, ih]
    · by_cases hc : c = '/'
      · simp only [h, if_false, hc, if_true]
        simp only [Bool.not_eq_true] at h
        simpa using h
      · simp only [h, if_false, hc]
        simp only [Bool.not_eq_true] at h
        simp [containsSlash, hc, h]
        simp only [containsSlash] at h
        simpa using h

theorem pathSplit_dir_slash : ∀ p : Str, containsSlash p = true →
    ∃ d : Str, (pathSplit p).1 = d ++ ['/'] := by
  intro p
  induction p with
  | nil => intro h; cases h
  | cons c rest ih =>
    intro h
    simp only [pathSplit]
    by_cases hr : containsSlash rest = true
    · obtain ⟨d, hd⟩ := ih hr
      exact ⟨c :: d, by simp [hr, hd]⟩
    · by_cases hc : c = '/'
      · exact ⟨[], by simp [hr, hc]⟩
      · exfalso
        simp only [Bool.not_eq_true] at hr
        simp only [containsSlash, List.any_cons] at h
        simp only [containsSlash] at hr
        simp [hc, hr] at h

theorem trimSuffixSlash_concat (d : Str) : trimSuffixSlash (d ++ ['/']) = d := by
  simp [trimSuffixSlash, List.getLast?_concat, List.dropLast_concat]

/-- C10: splitNamespacePath satisfies its decomposition contract: the child
component never contains a slash; when the slash-trimmed input has no slash
the parent is empty and the child is the trimmed input; otherwise joining
parent and child with one slash reconstructs the trimmed input exactly. -/
theorem c10_splitNamespacePath_spec (p : Str) :
    containsSlash (splitNamespacePath p).2 = false
    ∧ (containsSlash (trimSlashes p) = false →
        (splitNamespacePath p).1 = [] ∧ (splitNamespacePath p).2 = trimSlashes p)
    ∧ (containsSlash (trimSlashes p) = true →
        (splitNamespacePath p).1 ++ '/' :: (splitNamespacePath p).2 = trimSlashes p) := by
  refine ⟨?_, ?_, ?_⟩
  · cases hcs : containsSlash (trimSlashes p) with
    | false =>
      simp only [splitNamespacePath, hcs]
      simpa using hcs
    | true =>
      simp only [splitNamespacePath, hcs]
      simpa using pathSplit_child_noSlash (trimSlashes p)
  · intro h
    simp [splitNamespacePath, h]
  · intro h
    obtain ⟨d, hd⟩ := pathSplit_dir_slash (trimSlashes p) h
    have happ := pathSplit_append (trimSlashes p)
    simp only [splitNamespacePath, h]
    rw [hd, trimSuffixSlash_concat]
    rw [hd] at happ
    simpa using happ

/-- C10 witness: the nested path a/b splits into parent a and child b, which
rejoin to the trimmed input. -/
theorem c10_splitNamespacePath_spec_witness :
    (splitNamespacePath "a/b".data).1 ++ '/' :: (splitNamespacePath "a/b".data).2 =
      trimSlashes "a/b".data :=
  (c10_splitNamespacePath_spec "a/b".data).2.2 (by decide)

theorem sprintf1_k8s (name : Str) :
    sprintf1 "k8s-%s".data name = "k8s-".data ++ name := by
  show 'k' :: '8' :: 's' :: '-' :: (name ++ ([] : Str)) =
    'k' :: '8' :: 's' :: '-' :: name
  simp

/-- C2 counterexample: with the root /admin/ the formatter yields
/admin/k8s-test-ns — the root's leading slash is preserved — which differs
from the admin/k8s-test-ns the claim asserts. -/
theorem c2_formatPath_counterexample :
    formatVaultNamespacePath rAdminSlashRoot "test-ns".data = "/admin/k8s-test-ns".data
    ∧ formatVaultNamespacePath rAdminSlashRoot "test-ns".data ≠ "admin/k8s-test-ns".data := by
  decide

/-- C2 amended: with format k8s-%s and no root the formatter returns k8s-
prepended to the name for every name; with root /admin/ and name test-ns it
returns /admin/k8s-test-ns — the trailing slash of the root is normalized
away and no double slash appears at the join, while the root's leading slash
is preserved. -/
theorem c2_formatPath_equations (name : Str) :
    formatVaultNamespacePath rFmtNoRoot name = "k8s-".data ++ name
    ∧ formatVaultNamespacePath rAdminSlashRoot "test-ns".data = "/admin/k8s-test-ns".data := by
  constructor
  · have h : formatVaultNamespacePath rFmtNoRoot name =
        sprintf1 "k8s-%s".data name := rfl
    rw [h, sprintf1_k8s]
  · decide

theorem noDoubleSlash_iff : ∀ s : Str, noDoubleSlash s ↔ hasDoubleSlashB s = false
  | [] => by simp [noDoubleSlash, hasDoubleSlashB]
  | [a] => by simp [noDoubleSlash, hasDoubleSlashB]
  | a :: b :: rest => by
    have ih := noDoubleSlash_iff (b :: rest)
    rw [noDoubleSlash, List.chain'_cons]
    rw [noDoubleSlash] at ih
    rw [ih]
    show _ ↔ ((decide (a = '/') && decide (b = '/')) || hasDoubleSlashB (b :: rest)) = false
    rw [Bool.or_eq_false_iff, Bool.and_eq_false_iff]
    constructor
    · rintro ⟨hR, hrest⟩
      refine ⟨?_, hrest⟩
      by_cases ha : a = '/'
      · right
        by_cases hb : b = '/'
        · exact absurd ⟨ha, hb⟩ hR
        · simpa using hb
      · left
        simpa using ha
    · rintro ⟨hab, hrest⟩
      refine ⟨?_, hrest⟩
      rintro ⟨ha, hb⟩
      rcases hab with h | h
      · simp [ha] at h
      · simp [hb] at h

theorem trimLeftSlashes_decomp : ∀ s : Str, ∃ t : Str,
    s = t ++ trimLeftSlashes s ∧ ∀ c ∈ t, c = '/' := by
  intro s
  induction s with
  | nil => exact ⟨[], rfl, by simp⟩
  | cons c rest ih =>
    by_cases hc : c = '/'
    · obtain ⟨t, ht, hall⟩ := ih
      refine ⟨c :: t, ?_, ?_⟩
      · simp only [trimLeftSlashes, hc, if_true, List.cons_append, List.cons.injEq,
          true_and]
        exact ht
      · intro x hx
        rcases List.mem_cons.mp hx with h | h
        · rw [h]; exact hc
        · exact hall x h
    · exact ⟨[], by simp [trimLeftSlashes, hc], by simp⟩

theorem trimLeftSlashes_head : ∀ s : Str, (trimLeftSlashes s).head? ≠ some '/' := by
  intro s
  induction s with
  | nil => simp [trimLeftSlashes]
  | cons c rest ih =>
    by_cases hc : c = '/'
    · simpa [trimLeftSlashes, hc] using ih
    · simp [trimLeftSlashes, hc]

theorem noDoubleSlash_trimLeft (s : Str) (h : noDoubleSlash s) :
    noDoubleSlash (trimLeftSlashes s) := by
  obtain ⟨t, ht, _⟩ := trimLeftSlashes_decomp s
  exact h.suffix ⟨t, ht.symm⟩

theorem trimRightSlashes_decomp : ∀ s : Str, ∃ u : Str,
    s = trimRightSlashes s ++ u ∧ ∀ c ∈ u, c = '/' := by
  intro s
  obtain ⟨t, ht, hall⟩ := trimLeftSlashes_decomp s.reverse
  refine ⟨t.reverse, ?_, ?_⟩
  · have h2 := congrArg List.reverse ht
    simpa [trimRightSlashes] using h2
  · intro c hc
    exact hall c (List.mem_reverse.mp hc)

theorem trimRightSlashes_getLast (s : Str) :
    (trimRightSlashes s).getLast? ≠ some '/' := by
  show ((trimLeftSlashes s.reverse).reverse).getLast? ≠ some '/'
  rw [List.getLast?_reverse]
  exact trimLeftSlashes_head s.reverse

theorem noDoubleSlash_trimRight (s : Str) (h : noDoubleSlash s) :
    noDoubleSlash (trimRightSlashes s) := by
  obtain ⟨u, hu, _⟩ := trimRightSlashes_decomp s
  exact h.infix ⟨[], u, by simpa using hu.symm⟩

theorem trimRightSlashes_head (s : Str) (hne : s ≠ []) (h : noLeadingSlash s) :
    trimRightSlashes s ≠ [] ∧ (trimRightSlashes s).head? = s.head? := by
  obtain ⟨u, hu, hall⟩ := trimRightSlashes_decomp s
  have htr : trimRightSlashes s ≠ [] := by
    intro hempty
    rw [hempty, List.nil_append] at hu
    cases hs : s with
    | nil => exact hne hs
    | cons c rest =>
      have hcu : c ∈ u := by
        rw [← hu, hs]
        exact List.mem_cons_self c rest
      apply h
      rw [hs, List.head?_cons, hall c hcu]
  refine ⟨htr, ?_⟩
  conv_rhs => rw [hu]
  exact (List.head?_append_of_ne_nil _ htr).symm

theorem noDoubleSlash_join (a b : Str) (hA : noDoubleSlash a) (hB : noDoubleSlash b)
    (hA2 : a.getLast? ≠ some '/') (hB2 : b.head? ≠ some '/') :
    noDoubleSlash (a ++ '/' :: b) := by
  rw [noDoubleSlash, List.chain'_append]
  refine ⟨hA, ?_, ?_⟩
  · rw [List.chain'_cons']
    refine ⟨?_, hB⟩
    intro y hy hcontra
    apply hB2
    rw [Option.mem_def] at hy
    rw [hy, hcontra.2]
  · intro x hx y hy hcontra
    apply hA2
    rw [Option.mem_def] at hx
    rw [hx, hcontra.1]

theorem formatPath_join_eq (r : Reconciler) (name : Str)
    (hroot : r.config.vault.namespaceRoot ≠ []) :
    formatVaultNamespacePath r name =
      trimRightSlashes r.config.vault.namespaceRoot ++
        '/' :: trimLeftSlashes (formattedOf r name) := by
  rw [formatVaultNamespacePath, formattedOf]
  simp [hroot]

/-- C3 counterexample: with the test-asserted root /admin the formatter's
result begins with a slash, refuting the no-leading-slash part of the claim;
and the index-based variant with non-empty root admin and an empty formatted
name returns no result — the Go code panics indexing formattedName[0] —
refuting the totality part. -/
theorem c3_formatPath_counterexample :
    (formatVaultNamespacePath rAdminRoot "test-ns".data).head? = some '/'
    ∧ formatVaultNamespacePathIdx rBareRootNoFmt [] = none := by
  decide

/-- C3 amended: for every name (the empty one included) and non-empty
namespaceRoot, the TrimLeft-based formatter is total and — whenever the root
has no leading slash and no double slash and the formatted name has no double
slash — its result has no leading slash and no double slash; the index-based
variant is not total: it fails (Go panic on formattedName[0]) exactly when
the formatted name is empty. -/
theorem c3_formatPath_amended (r : Reconciler) (name : Str)
    (hroot : r.config.vault.namespaceRoot ≠ []) :
    (noLeadingSlash r.config.vault.namespaceRoot →
      noDoubleSlash r.config.vault.namespaceRoot →
      noDoubleSlash (formattedOf r name) →
      noLeadingSlash (formatVaultNamespacePath r name)
      ∧ noDoubleSlash (formatVaultNamespacePath r name))
    ∧ (formatVaultNamespacePathIdx r name = none ↔ formattedOf r name = []) := by
  constructor
  · intro h1 h2 h3
    rw [formatPath_join_eq r name hroot]
    obtain ⟨htr, hhead⟩ := trimRightSlashes_head r.config.vault.namespaceRoot hroot h1
    constructor
    · show (trimRightSlashes r.config.vault.namespaceRoot ++
        '/' :: trimLeftSlashes (formattedOf r name)).head? ≠ some '/'
      rw [List.head?_append_of_ne_nil _ htr, hhead]
      exact h1
    · exact noDoubleSlash_join _ _
        (noDoubleSlash_trimRight _ h2)
        (noDoubleSlash_trimLeft _ h3)
        (trimRightSlashes_getLast _)
        (trimLeftSlashes_head _)
  · rw [formatVaultNamespacePathIdx, formattedOf]
    simp only [hroot, if_false]
    cases hf : (if r.config.namespaceFormat = [] then name
        else sprintf1 r.config.namespaceFormat name) with
    | nil => simp [hf]
    | cons c rest => simp [hf]

/-- C3 amended witness: with root admin and name x the formatter result
admin/k8s-x has no leading slash and no double slash, and the index-based
variant succeeds since the formatted name k8s-x is non-empty. -/
theorem c3_formatPath_amended_witness :
    (noLeadingSlash (formatVaultNamespacePath rBareAdminRoot "x".data)
      ∧ noDoubleSlash (formatVaultNamespacePath rBareAdminRoot "x".data))
    ∧ (formatVaultNamespacePathIdx rBareAdminRoot "x".data = none ↔
        formattedOf rBareAdminRoot "x".data = []) := by
  have h := c3_formatPath_amended rBareAdminRoot "x".data (by decide)
  exact ⟨h.1 (by decide) ((noDoubleSlash_iff _).mpr (by decide))
    ((noDoubleSlash_iff _).mpr (by decide)), h.2⟩

end VaultNSC
